import Mathlib

/-!
# Verification of the `llm-service` PDF-ingestion subsystem

Shallow embedding of the ingestion subsystem of the repository:

* `src/ingestion/ingestion.service.ts`   (`IngestionService`)
* `src/ingestion/ingestion.controller.ts` (`IngestionController`)
* `src/ingestion/ingestion.processor.ts` (`IngestionProcessor`)
* `entities/file-upload.entity.ts`       (`FileUpload`, with its declared
  unique columns `content_hash` and `job_id`)
* `src/storage/storage.service.ts`       (`StorageService`, interface level)

Text is modelled as `List Char` (so that JavaScript `String.prototype.trim`
and `.length` have a direct executable counterpart), BullMQ job ids and the
`uuid` supply are modelled as natural-number counters, the Postgres table
behind TypeORM as a list of rows plus an id counter, and every external
collaborator of the worker (R2 download, temp-file write, PDF load, the
LangChain text splitters, the embedding client, the Qdrant upsert, and
the two temp-file unlink calls) as an explicit outcome oracle (`Except`),
since each of those calls can succeed or throw independently of this
repository's code.  The temp-file lifecycle (the `tempPath` variable and
whether the file is on disk) is threaded through the worker explicitly.
-/

/-- Text, modelled as a list of characters (JS strings). -/
abbrev Str := List Char

/-- Coerce a Lean string literal into the `Str` model. -/
def s2c (s : String) : Str := s.data

/-- JavaScript whitespace test used by `String.prototype.trim`
(the characters relevant to this code base). -/
def isJsWs (c : Char) : Bool :=
  c == ' ' || c == '\t' || c == '\n' || c == '\r'

/-- JavaScript `String.prototype.trim`: strip whitespace at both ends. -/
def jsTrim (s : Str) : Str :=
  ((s.dropWhile isJsWs).reverse.dropWhile isJsWs).reverse

/-- Upload lifecycle status column of `file_uploads.status`
(`'processing' | 'completed' | 'failed'`). -/
inductive UploadStatus
  | processing
  | completed
  | failed
deriving DecidableEq, Repr

/-- Row of the `file_uploads` table (`FileUpload` entity).
`content_hash` and `job_id` are declared `unique: true` in the entity.
The database-managed timestamp columns `uploaded_at` / `updated_at`
(`@CreateDateColumn` / `@UpdateDateColumn`) are elided: no verified
property mentions them. -/
structure FileUpload where
  id : Nat
  content_hash : Str
  original_filename : Str
  uploaded_by : Option Str
  job_id : Nat
  r2_object_key : Str
  status : UploadStatus
  chunk_count : Option Nat
  error_message : Option Str
deriving DecidableEq, Repr

/-- The Postgres table behind the TypeORM repository of `FileUpload`,
with the generator for `@PrimaryGeneratedColumn`. -/
structure Db where
  rows : List FileUpload
  nextId : Nat
deriving DecidableEq, Repr

/-- `IngestionService.findByHash`: first row whose `content_hash` matches. -/
def findByHash (db : Db) (contentHash : Str) : Option FileUpload :=
  db.rows.find? (fun r => r.content_hash == contentHash)

/-- `IngestionService.findByJobId`: first row whose `job_id` matches. -/
def findByJobId (db : Db) (jobId : Nat) : Option FileUpload :=
  db.rows.find? (fun r => r.job_id == jobId)

/-- Data handed to `IngestionService.create` by the controller
(`Partial<FileUpload>` with these exact fields at both call sites). -/
structure CreateData where
  content_hash : Str
  original_filename : Str
  uploaded_by : Option Str
  job_id : Nat
  r2_object_key : Str
  status : UploadStatus
deriving DecidableEq, Repr

/-- `IngestionService.create`: `repository.create(data)` followed by
`repository.save` on an entity without a primary key, i.e. an SQL INSERT.
The `FileUpload` entity declares `content_hash` and `job_id` as unique
columns, so the insert is rejected by the database (TypeORM throws a
`QueryFailedError`) whenever a row with the same `content_hash` or the
same `job_id` already exists; otherwise the row is appended. -/
def createRecord (db : Db) (data : CreateData) : Except Str (FileUpload × Db) :=
  if db.rows.any (fun r =>
      r.content_hash == data.content_hash || r.job_id == data.job_id) then
    .error (s2c "unique constraint violation on file_uploads")
  else
    let row : FileUpload :=
      { id := db.nextId
        content_hash := data.content_hash
        original_filename := data.original_filename
        uploaded_by := data.uploaded_by
        job_id := data.job_id
        r2_object_key := data.r2_object_key
        status := data.status
        chunk_count := none
        error_message := none }
    .ok (row, { rows := db.rows ++ [row], nextId := db.nextId + 1 })

/-- `IngestionService.updateStatus`: `repository.update({content_hash}, ...)`.
Updates every row matching the hash (in practice at most one, by the unique
column).  TypeORM skips `undefined` properties of the partial entity, which
the optional arguments model: a `none` leaves the column unchanged. -/
def updateStatus (db : Db) (contentHash : Str) (status : UploadStatus)
    (chunkCount : Option Nat) (errorMessage : Option Str) : Db :=
  { db with
    rows := db.rows.map (fun r =>
      if r.content_hash == contentHash then
        { r with
          status := status
          chunk_count := chunkCount.elim r.chunk_count some
          error_message := errorMessage.elim r.error_message some }
      else r) }

/-- BullMQ job states relevant to this controller
(`queued` stands for BullMQ's waiting/delayed family). -/
inductive JobState
  | queued
  | active
  | completed
  | failed
deriving DecidableEq, Repr

/-- Payload of a `process-pdf` job (`PdfJobData`). -/
structure PdfJobData where
  objectKey : Str
  fileHash : Str
  fileName : Str
  userId : Option Str
deriving DecidableEq, Repr

/-- A job in the `pdf-ingestion` BullMQ queue. -/
structure QJob where
  id : Nat
  data : PdfJobData
  state : JobState
deriving DecidableEq, Repr

/-- The `pdf-ingestion` BullMQ queue, with its job-id generator. -/
structure JobQueue where
  jobs : List QJob
  nextJobId : Nat
deriving DecidableEq, Repr

/-- `pdfQueue.add('process-pdf', data)`: enqueue a new job (state `queued`)
with a fresh id, returning the job. -/
def addJob (q : JobQueue) (data : PdfJobData) : QJob × JobQueue :=
  let j : QJob := { id := q.nextJobId, data := data, state := .queued }
  (j, { jobs := q.jobs ++ [j], nextJobId := q.nextJobId + 1 })

/-- `pdfQueue.getJob(jobId)`. -/
def getJob (q : JobQueue) (jobId : Nat) : Option QJob :=
  q.jobs.find? (fun j => j.id == jobId)

/-- Combined state seen by the controller: the metadata table and the queue. -/
structure SysState where
  db : Db
  queue : JobQueue
deriving DecidableEq, Repr

/-- Result of `IngestionController.getUploadUrl` (`POST ingestion/upload-url`). -/
inductive UploadUrlResult
  | duplicate (message : Str) (skipUpload : Bool) (metadata : FileUpload)
  | inFlight (message : Str) (jobId : Nat) (skipUpload : Bool)
  | uploadTarget (uploadUrl : Str) (objectKey : Str) (fileHash : Str)
      (expiresIn : Nat)
deriving DecidableEq, Repr

/-- `StorageService.getUploadUrl(key, expiresIn = 3600)`: a pre-signed PUT
URL from the S3 presigner, abstracted as an oracle `presign` over the key
and the expiry actually passed. -/
def storageGetUploadUrl (presign : Str → Nat → Str) (key : Str)
    (expiresIn : Nat := 3600) : Str :=
  presign key expiresIn

/-- `IngestionController.getUploadUrl`: duplicate / already-processing
short-circuits by content hash, otherwise derive the R2 object key
`pdfs/{fileHash}-{Date.now()}-{fileName}` and issue a pre-signed URL.
The handler performs no database write, so it returns the state unchanged. -/
def getUploadUrl (presign : Str → Nat → Str) (st : SysState)
    (fileName fileHash : Str) (now : Nat) : UploadUrlResult × SysState :=
  let fresh : UploadUrlResult × SysState :=
    let objectKey :=
      s2c "pdfs/" ++ fileHash ++ s2c "-" ++ Nat.toDigits 10 now
        ++ s2c "-" ++ fileName
    let uploadUrl := storageGetUploadUrl presign objectKey
    (.uploadTarget uploadUrl objectKey fileHash 3600, st)
  match findByHash st.db fileHash with
  | some existingFile =>
    if existingFile.status = .completed then
      (.duplicate
        (s2c "File already processed as \"" ++ existingFile.original_filename
          ++ s2c "\"")
        true existingFile, st)
    else if existingFile.status = .processing then
      (.inFlight (s2c "File is currently being processed")
        existingFile.job_id true, st)
    else fresh
  | none => fresh

/-- Result of `IngestionController.triggerProcessing` (`POST ingestion/process`). -/
inductive TriggerResult
  | alreadyProcessing (jobId : Nat)
  | queued (jobId : Nat)
deriving DecidableEq, Repr

/-- `IngestionController.triggerProcessing`: short-circuit when a record for
the hash is in `processing` state; otherwise enqueue a `process-pdf` job
first and only then insert the `UploadRecord` in `processing` state.  The
insert can throw (unique columns); the exception propagates out of the
handler, but the job enqueued just before remains in the queue, which the
returned state reflects. -/
def triggerProcessing (st : SysState) (objectKey fileName fileHash : Str)
    (userId : Option Str) : Except Str TriggerResult × SysState :=
  let enqueueThenCreate : Except Str TriggerResult × SysState :=
    let (job, q') := addJob st.queue
      { objectKey := objectKey, fileHash := fileHash, fileName := fileName
        userId := userId }
    match createRecord st.db
      { content_hash := fileHash
        original_filename := fileName
        uploaded_by := userId
        job_id := job.id
        r2_object_key := objectKey
        status := .processing } with
    | .ok (_, db') => (.ok (.queued job.id), { db := db', queue := q' })
    | .error e => (.error e, { db := st.db, queue := q' })
  match findByHash st.db fileHash with
  | some existingFile =>
    if existingFile.status = .processing then
      (.ok (.alreadyProcessing existingFile.job_id), st)
    else enqueueThenCreate
  | none => enqueueThenCreate

/-- Non-exceptional result of `IngestionController.retryJob`
(`POST ingestion/retry/:jobId`). -/
inductive RetryResult
  | cannotRetry (state : JobState)
  | queued (newJobId : Nat) (originalJobId : Nat)
deriving DecidableEq, Repr

/-- Exceptional outcomes of `retryJob`: the 404 `NotFoundException`, and a
database error escaping the handler (the `create` insert can violate the
unique columns of `file_uploads`). -/
inductive RetryError
  | notFound
  | dbError (msg : Str)
deriving DecidableEq, Repr

/-- `IngestionController.retryJob`: 404 when the queue has no such job;
an explicit cannot-retry response unless the job state is `failed` or
`completed`; otherwise enqueue a new job with the original payload and
then insert a fresh `UploadRecord` for the new job id (the insert throws
when a row with the same `content_hash` already exists — the new job
remains enqueued in that case). -/
def retryJob (st : SysState) (jobId : Nat) :
    Except RetryError RetryResult × SysState :=
  match getJob st.queue jobId with
  | none => (.error .notFound, st)
  | some job =>
    if job.state ≠ .failed ∧ job.state ≠ .completed then
      (.ok (.cannotRetry job.state), st)
    else
      let (newJob, q') := addJob st.queue job.data
      match createRecord st.db
        { content_hash := job.data.fileHash
          original_filename := job.data.fileName
          uploaded_by := job.data.userId
          job_id := newJob.id
          r2_object_key := job.data.objectKey
          status := .processing } with
      | .ok (_, db') =>
        (.ok (.queued newJob.id jobId), { db := db', queue := q' })
      | .error e => (.error (.dbError e), { db := st.db, queue := q' })

/-- An extracted document / chunk (`DocChunk`): `pageContent` plus the only
piece of metadata the processor reads, `metadata?.loc?.pageNumber`. -/
structure Chunk where
  pageContent : Str
  locPageNumber : Option Nat
deriving DecidableEq, Repr

/-- An embedding vector (the numeric contents are opaque to this code). -/
abbrev Vec := List Int

/-- A Qdrant point as built by the processor.  `id` is the sequence number
of the `uuidv4()` call that produced it; `ingested_at` carries the job's
clock value. -/
structure Point where
  id : Nat
  vector : Vec
  page_content : Str
  content_hash : Str
  source_file : Str
  chunk_index : Nat
  page_number : Nat
  r2_object_key : Str
  ingested_at : Nat
deriving DecidableEq, Repr

/-- Outcome oracles for every external call `IngestionProcessor.process`
makes.  Each models one collaborator: R2 download, the temp-file write,
`PDFLoader.load`, the 600/100 `RecursiveCharacterTextSplitter`, the
1500/50 splitter used on oversized chunks, `embedDocuments` (batch),
`embedQuery` (per chunk), the Qdrant upsert, and the two `fs.unlink`
calls on the temp file — the unguarded one right after chunking
(`unlinkTemp`) and the one inside the catch block (`unlinkTempInCatch`),
each of which can succeed or throw on its own.
`StorageService.deleteFile` swallows its own errors, so it needs no
oracle. -/
structure ProcEnv where
  download : Except Str Unit
  writeTemp : Except Str Unit
  loadPdf : Except Str (List Chunk)
  split600 : List Chunk → Except Str (List Chunk)
  split1500 : Chunk → Except Str (List Chunk)
  embedBatch : List Str → Except Str (List Vec)
  embedOne : Str → Except Str Vec
  upsert : List Point → Except Str Unit
  unlinkTemp : Except Str Unit
  unlinkTempInCatch : Except Str Unit

/-- `IngestionProcessor.splitOversizedChunk`: re-split one oversized chunk
with the 1500/50 splitter; if the splitter throws, fall back to returning
the original chunk unchanged. -/
def splitOversizedChunk (split1500 : Chunk → Except Str (List Chunk))
    (chunk : Chunk) : List Chunk :=
  match split1500 chunk with
  | .ok subDocs => subDocs
  | .error _ => [chunk]

/-- The validate-and-split loop of `process` (its `for (const chunk of
chunks)` body): trim, drop trimmed text shorter than 10 characters,
re-split trimmed text longer than 1500 characters via
`splitOversizedChunk`, keep everything else as the trimmed chunk. -/
def validChunksOf (split1500 : Chunk → Except Str (List Chunk))
    (chunks : List Chunk) : List Chunk :=
  match chunks with
  | [] => []
  | chunk :: rest =>
    let content := jsTrim chunk.pageContent
    let tail := validChunksOf split1500 rest
    if content.length < 10 then tail
    else if content.length > 1500 then
      splitOversizedChunk split1500
        { pageContent := content, locPageNumber := chunk.locPageNumber } ++ tail
    else
      { pageContent := content, locPageNumber := chunk.locPageNumber } :: tail

/-- The `for` loop of `IngestionProcessor.embedChunksIndividually`, indexed
by the loop counter `i`; `n` is the fixed total chunk count used for the
progress formula. -/
def embedIndividuallyGo (embedOne : Str → Except Str Vec) (n : Nat) :
    Nat → List Chunk → List (Option Vec) × List Nat
  | _, [] => ([], [])
  | i, c :: rest =>
    let tail := embedIndividuallyGo embedOne n (i + 1) rest
    match embedOne c.pageContent with
    | .ok emb => (some emb :: tail.1, (50 + i * 30 / n) :: tail.2)
    | .error _ => (none :: tail.1, tail.2)

/-- `IngestionProcessor.embedChunksIndividually`: embed each chunk in order,
pushing `null` for a chunk whose `embedQuery` call throws; a progress value
`50 + floor(i / n * 30)` is reported after each successful chunk.  Returns
the vector list and the reported progress values. -/
def embedChunksIndividually (embedOne : Str → Except Str Vec)
    (chunks : List Chunk) : List (Option Vec) × List Nat :=
  embedIndividuallyGo embedOne chunks.length 0 chunks

/-- JavaScript indexing `embeddings[i]` with its falsy treatment of both
`undefined` (out of range) and `null`. -/
def vecAt (embs : List (Option Vec)) (i : Nat) : Option Vec :=
  (embs.get? i).bind id

/-- The point-building map-and-filter of `process` (step 5): one point per
chunk whose vector is non-null, `uuidv4()` drawn only for kept points,
`chunk_index` the position of the chunk in the valid-chunk list. -/
def buildPointsGo (embs : List (Option Vec)) (fileHash fileName objectKey : Str)
    (now : Nat) : Nat → Nat → List Chunk → List Point
  | _, _, [] => []
  | i, u, c :: rest =>
    match vecAt embs i with
    | none => buildPointsGo embs fileHash fileName objectKey now (i + 1) u rest
    | some v =>
      { id := u
        vector := v
        page_content := c.pageContent
        content_hash := fileHash
        source_file := fileName
        chunk_index := i
        page_number := c.locPageNumber.getD 0
        r2_object_key := objectKey
        ingested_at := now } ::
        buildPointsGo embs fileHash fileName objectKey now (i + 1) (u + 1) rest

/-- See `buildPointsGo`: start at chunk index 0 with `uuidNext` the next
unused uuid sequence number (call 0 named the temp file). -/
def buildPoints (uuidNext : Nat) (chunks : List Chunk)
    (embs : List (Option Vec)) (fileHash fileName objectKey : Str)
    (now : Nat) : List Point :=
  buildPointsGo embs fileHash fileName objectKey now 0 uuidNext chunks

/-- Successful return value of `process`. -/
structure ProcResult where
  status : Str
  totalChunks : Nat
  processedChunks : Nat
  fileHash : Str
deriving DecidableEq, Repr

/-- Observable outcome of one `process` run: the re-thrown error or the
return value, the metadata table afterwards, whether the temp file still
exists, how many embedding-service calls were made, every Qdrant upsert
call that was attempted, the vector list the persist stage worked from
(empty when that stage was never reached), the progress reports, and
whether the R2 delete was attempted. -/
structure ProcOutcome where
  result : Except Str ProcResult
  db : Db
  tempFileExists : Bool
  embedCalls : Nat
  upsertCalls : List (List Point)
  embeddingsUsed : List (Option Vec)
  progressUpdates : List Nat
  storeDeleteAttempted : Bool
deriving Repr

/-- Step 4 of `process`: one `embedDocuments` batch attempt over all valid
chunk texts; on any batch failure, fall back to `embedChunksIndividually`.
Returns the vector list the rest of the pipeline works from, the number of
embedding-service calls made (the failed batch call plus one `embedQuery`
per chunk in the fallback), and the fallback's progress reports. -/
def embedStage (env : ProcEnv) (validChunks : List Chunk) :
    List (Option Vec) × Nat × List Nat :=
  match env.embedBatch (validChunks.map (fun c => c.pageContent)) with
  | .ok vs => (vs.map some, 1, [])
  | .error _ =>
    let fallback := embedChunksIndividually env.embedOne validChunks
    (fallback.1, 1 + validChunks.length, fallback.2)

/-- The catch block of `process`.  It receives the temp-file state at the
moment of the throw: whether the `tempPath` variable is still set
(`tempPathSet`) and whether the file actually exists on disk
(`tempExists`; it differs from `tempPathSet` when `fs.writeFile` failed
after `tempPath` was assigned, or when the post-chunking unlink threw).
When `tempPath` is set the catch attempts `fs.unlink` inside its own
try/catch: on success the file is gone, and on failure the error is
swallowed and the file state is left as it was.  The block then writes
`status = 'failed'`, `chunk_count = 0` and the exception message onto the
rows of this hash, and re-throws. -/
def failOutcome (db : Db) (fileHash : Str) (msg : Str)
    (tempPathSet tempExists : Bool) (unlinkInCatch : Except Str Unit)
    (embedCalls : Nat) (upsertCalls : List (List Point))
    (embeddingsUsed : List (Option Vec)) (progressUpdates : List Nat) :
    ProcOutcome :=
  { result := .error msg
    db := updateStatus db fileHash .failed (some 0) (some msg)
    tempFileExists :=
      if tempPathSet then
        match unlinkInCatch with
        | .ok _ => false
        | .error _ => tempExists
      else tempExists
    embedCalls := embedCalls
    upsertCalls := upsertCalls
    embeddingsUsed := embeddingsUsed
    progressUpdates := progressUpdates
    storeDeleteAttempted := false }

/-- `IngestionProcessor.process`: the whole worker pipeline — download,
temp-file write, PDF load, 600/100 chunking, temp-file unlink, validate
and re-split, empty-document guard, batch embedding with individual
fallback, point building, one Qdrant upsert, record finalization and
best-effort R2 delete — with every error path routed through the catch
block (`failOutcome`).  The temp-file lifecycle is threaded through
explicitly: `tempPath` is assigned before `fs.writeFile` (so a write
failure reaches the catch with the variable set but no file on disk); the
unguarded `fs.unlink` right after chunking removes the file and nulls
`tempPath` on success, while its failure is itself the thrown exception
and reaches the catch with the variable set and the file present; every
later throw reaches the catch with `tempPath` null and the file gone. -/
def process (env : ProcEnv) (jobData : PdfJobData) (db : Db) (now : Nat) :
    ProcOutcome :=
  let hash := jobData.fileHash
  match env.download with
  | .error e => failOutcome db hash e false false env.unlinkTempInCatch 0 [] [] [10]
  | .ok () =>
  -- `tempPath = path.join(...)` is assigned here, before the write
  match env.writeTemp with
  | .error e => failOutcome db hash e true false env.unlinkTempInCatch 0 [] [] [10]
  | .ok () =>
  -- the temp file now exists on disk
  match env.loadPdf with
  | .error e => failOutcome db hash e true true env.unlinkTempInCatch 0 [] [] [10, 30]
  | .ok docs =>
  match env.split600 docs with
  | .error e => failOutcome db hash e true true env.unlinkTempInCatch 0 [] [] [10, 30]
  | .ok chunks =>
  -- `await fs.unlink(tempPath); tempPath = null;` — unguarded inside the
  -- try, so its own failure is the exception that reaches the catch,
  -- with `tempPath` still set and the file still present
  match env.unlinkTemp with
  | .error e => failOutcome db hash e true true env.unlinkTempInCatch 0 [] [] [10, 30]
  | .ok () =>
  -- the temp file is gone and `tempPath` is null from here on
  let validChunks := validChunksOf env.split1500 chunks
  if validChunks.length = 0 then
    failOutcome db hash (s2c "No valid chunks found in PDF")
      false false env.unlinkTempInCatch 0 [] [] [10, 30]
  else
    let stage := embedStage env validChunks
    let embeddings := stage.1
    let embedCalls := stage.2.1
    let fallbackProgress := stage.2.2
    let validPoints :=
      buildPoints 1 validChunks embeddings hash jobData.fileName
        jobData.objectKey now
    match env.upsert validPoints with
    | .error e =>
      failOutcome db hash e false false env.unlinkTempInCatch
        embedCalls [validPoints] embeddings
        ([10, 30, 50] ++ fallbackProgress ++ [80])
    | .ok () =>
      { result := .ok
          { status := s2c "success"
            totalChunks := chunks.length
            processedChunks := validPoints.length
            fileHash := hash }
        db := updateStatus db hash .completed (some validPoints.length) none
        -- false because this branch is reached only through the
        -- successful `env.unlinkTemp` above, which removed the file
        tempFileExists := false
        embedCalls := embedCalls
        upsertCalls := [validPoints]
        embeddingsUsed := embeddings
        progressUpdates := [10, 30, 50] ++ fallbackProgress ++ [80, 95, 100]
        storeDeleteAttempted := true }

/-- Modelled from the spec: the Text Chunker of §4.3.  The splitter invoked
by `splitOversizedChunk` is the LangChain `RecursiveCharacterTextSplitter`,
library code not present in this repository, so it is modelled from the
spec's words: a deterministic, order-preserving pure function
`(text, targetSize, overlap) → passages` in which passage `i+1` begins
`overlap` characters before passage `i` ends.  `fuel` bounds the recursion
(the window start advances by `targetSize - overlap` each step). -/
def chunkWindows (size stride : Nat) : Nat → Str → List Str
  | fuel, s =>
    if s = [] then []
    else if s.length ≤ size then [s]
    else
      match fuel with
      | 0 => [s]
      | fuel' + 1 => s.take size :: chunkWindows size stride fuel' (s.drop stride)

/-- Modelled from the spec: the Text Chunker of §4.3 applied to a single
text with a target size and an overlap (see `chunkWindows`). -/
def chunkText (targetSize overlap : Nat) (text : Str) : List Str :=
  chunkWindows targetSize (targetSize - overlap) text.length text

/-- Modelled from the spec: the 1500/50 re-split of one oversized chunk
(§4.2 step 4) realised by the spec's Text Chunker; it never throws. -/
def specSplit1500 (c : Chunk) : Except Str (List Chunk) :=
  .ok ((chunkText 1500 50 c.pageContent).map
    (fun t => { pageContent := t, locPageNumber := c.locPageNumber }))

deriving instance DecidableEq for Except

/-- The `IngestionService.create` payload built by both `triggerProcessing`
and `retryJob` for a job payload `d` and the freshly enqueued job id. -/
def createPayload (d : PdfJobData) (newJobId : Nat) : CreateData :=
  { content_hash := d.fileHash
    original_filename := d.fileName
    uploaded_by := d.userId
    job_id := newJobId
    r2_object_key := d.objectKey
    status := .processing }

/-- The §3 invariant of the spec: no two rows of `file_uploads` share a
content hash (the declared unique column). -/
def hashUnique (db : Db) : Prop :=
  db.rows.Pairwise (fun a b => a.content_hash ≠ b.content_hash)

instance (db : Db) : Decidable (hashUnique db) := by
  unfold hashUnique
  infer_instance

/-! Concrete inputs used by the witnesses and counterexamples below. -/

/-- A job payload for the content hash `h`. -/
def cexJobData : PdfJobData :=
  { objectKey := s2c "pdfs/h-1-f.pdf", fileHash := s2c "h"
    fileName := s2c "f.pdf", userId := some (s2c "u") }

/-- A failed `file_uploads` row for the content hash `h` and job 0. -/
def cexRow : FileUpload :=
  { id := 0, content_hash := s2c "h", original_filename := s2c "f.pdf"
    uploaded_by := some (s2c "u"), job_id := 0
    r2_object_key := s2c "pdfs/h-1-f.pdf", status := .failed
    chunk_count := some 0, error_message := some (s2c "boom") }

/-- A state holding `cexRow` and its failed job 0. -/
def cexState : SysState :=
  { db := { rows := [cexRow], nextId := 1 }
    queue := { jobs := [{ id := 0, data := cexJobData, state := .failed }]
               nextJobId := 1 } }

/-- A presigner oracle that returns the key itself. -/
def wPresign : Str → Nat → Str := fun k _ => k

/-- A 13-character chunk (valid: its trimmed length is within bounds). -/
def wChunk : Chunk := { pageContent := s2c "0123456789abc", locPageNumber := some 1 }

/-- An environment in which every collaborator call succeeds. -/
def wEnv : ProcEnv :=
  { download := .ok (), writeTemp := .ok ()
    loadPdf := .ok [wChunk]
    split600 := fun ds => .ok ds
    split1500 := specSplit1500
    embedBatch := fun ts => .ok (ts.map (fun _ => [1]))
    embedOne := fun _ => .ok [1]
    upsert := fun _ => .ok ()
    unlinkTemp := .ok (), unlinkTempInCatch := .ok () }

/-- A state whose only job (id 3) is in `active` state. -/
def wActiveState : SysState :=
  { db := { rows := [], nextId := 0 }
    queue := { jobs := [{ id := 3, data := cexJobData, state := .active }]
               nextJobId := 4 } }

/-- First of two valid-sized chunks. -/
def w4ChunkA : Chunk := { pageContent := s2c "first chunk text", locPageNumber := some 1 }

/-- Second of two valid-sized chunks. -/
def w4ChunkB : Chunk := { pageContent := s2c "second chunk text", locPageNumber := some 2 }

/-- An environment whose batch embedding call fails and whose per-chunk
embedding fails exactly on the first chunk text. -/
def w4Env : ProcEnv :=
  { download := .ok (), writeTemp := .ok ()
    loadPdf := .ok [w4ChunkA, w4ChunkB]
    split600 := fun ds => .ok ds
    split1500 := specSplit1500
    embedBatch := fun _ => .error (s2c "batch down")
    embedOne := fun s => if s = s2c "first chunk text" then .error (s2c "bad chunk") else .ok [7]
    upsert := fun _ => .ok ()
    unlinkTemp := .ok (), unlinkTempInCatch := .ok () }

/-- A one-row table holding `cexRow`. -/
def wDb : Db := { rows := [cexRow], nextId := 1 }

/-- An all-success environment over the two chunks. -/
def w5Env : ProcEnv :=
  { download := .ok (), writeTemp := .ok ()
    loadPdf := .ok [w4ChunkA, w4ChunkB]
    split600 := fun ds => .ok ds
    split1500 := specSplit1500
    embedBatch := fun ts => .ok (ts.map (fun _ => [1]))
    embedOne := fun _ => .ok [1]
    upsert := fun _ => .ok ()
    unlinkTemp := .ok (), unlinkTempInCatch := .ok () }

/-- An environment whose extracted document trims below 10 characters,
leaving zero valid chunks. -/
def w6Env : ProcEnv :=
  { download := .ok (), writeTemp := .ok ()
    loadPdf := .ok [{ pageContent := s2c "hi", locPageNumber := some 1 }]
    split600 := fun ds => .ok ds
    split1500 := specSplit1500
    embedBatch := fun ts => .ok (ts.map (fun _ => [1]))
    embedOne := fun _ => .ok [1]
    upsert := fun _ => .ok ()
    unlinkTemp := .ok (), unlinkTempInCatch := .ok () }

/-- A completed `file_uploads` row for the content hash `h`. -/
def w8Row : FileUpload :=
  { id := 0, content_hash := s2c "h", original_filename := s2c "f.pdf"
    uploaded_by := some (s2c "u"), job_id := 0
    r2_object_key := s2c "pdfs/h-1-f.pdf", status := .completed
    chunk_count := some 3, error_message := none }

/-- A state holding only the completed row `w8Row`. -/
def w8State : SysState :=
  { db := { rows := [w8Row], nextId := 1 }
    queue := { jobs := [], nextJobId := 0 } }

/-- The empty state. -/
def w9State : SysState :=
  { db := { rows := [], nextId := 0 }
    queue := { jobs := [], nextJobId := 0 } }

/-- An environment whose R2 download fails. -/
def w10Env : ProcEnv :=
  { download := .error (s2c "net down"), writeTemp := .ok ()
    loadPdf := .ok [], split600 := fun ds => .ok ds
    split1500 := specSplit1500
    embedBatch := fun ts => .ok (ts.map (fun _ => [1]))
    embedOne := fun _ => .ok [1]
    upsert := fun _ => .ok ()
    unlinkTemp := .ok (), unlinkTempInCatch := .ok () }

/-- A processing row for hash `h` with a previously written chunk count. -/
def w10Row : FileUpload :=
  { id := 0, content_hash := s2c "h", original_filename := s2c "f.pdf"
    uploaded_by := some (s2c "u"), job_id := 0
    r2_object_key := s2c "pdfs/h-1-f.pdf", status := .processing
    chunk_count := some 7, error_message := none }

/-- A one-row table holding `w10Row`. -/
def w10Db : Db := { rows := [w10Row], nextId := 1 }

/-- An environment in which the PDF load throws (so the catch runs with
the temp file present) and the catch-block `fs.unlink` itself fails. -/
def c7Env : ProcEnv :=
  { download := .ok (), writeTemp := .ok ()
    loadPdf := .error (s2c "parse fail")
    split600 := fun ds => .ok ds
    split1500 := specSplit1500
    embedBatch := fun ts => .ok (ts.map (fun _ => [1]))
    embedOne := fun _ => .ok [1]
    upsert := fun _ => .ok ()
    unlinkTemp := .ok (), unlinkTempInCatch := .error (s2c "unlink fail") }

/-- A 2910-character text: 1450 letters, then 1455 blanks, then 5 letters.
Its 1500/50 re-split has a second window that trims to 5 characters. -/
def c3text : Str :=
  List.replicate 1450 'X' ++ (List.replicate 1455 ' ' ++ List.replicate 5 'Y')

/-- The oversized chunk carrying `c3text`. -/
def c3chunk : Chunk := { pageContent := c3text, locPageNumber := some 1 }

/-- First window of the 1500/50 split of `c3text`. -/
def c3w1 : Str := List.replicate 1450 'X' ++ List.replicate 50 ' '

/-- Second window of the 1500/50 split of `c3text`: 1455 blanks then 5
letters, which trims to 5 characters. -/
def c3w2 : Str := List.replicate 1455 ' ' ++ List.replicate 5 'Y'

/-! Helper lemmas. -/

lemma updateStatus_mem_some (db : Db) (contentHash : Str) (st : UploadStatus)
    (c : Nat) (m : Str) :
    ∀ r ∈ (updateStatus db contentHash st (some c) (some m)).rows,
      r.content_hash = contentHash →
        r.status = st ∧ r.chunk_count = some c ∧ r.error_message = some m := by
  intro r hr hh
  simp only [updateStatus, List.mem_map] at hr
  obtain ⟨r0, _, rfl⟩ := hr
  by_cases h : r0.content_hash == contentHash
  · simp [h]
  · simp only [h, if_neg] at hh ⊢
    exact absurd hh (by simpa using h)

lemma updateStatus_mem_completed (db : Db) (contentHash : Str) (c : Nat) :
    ∀ r ∈ (updateStatus db contentHash .completed (some c) none).rows,
      r.content_hash = contentHash →
        r.status = .completed ∧ r.chunk_count = some c := by
  intro r hr hh
  simp only [updateStatus, List.mem_map] at hr
  obtain ⟨r0, _, rfl⟩ := hr
  by_cases h : r0.content_hash == contentHash
  · simp [h]
  · simp only [h, if_neg] at hh ⊢
    exact absurd hh (by simpa using h)

lemma failOutcome_rows (db : Db) (hash e : Str) (ts te : Bool)
    (ulc : Except Str Unit) (ec : Nat)
    (uc : List (List Point)) (eu : List (Option Vec)) (pu : List Nat) (msg : Str)
    (h : (failOutcome db hash e ts te ulc ec uc eu pu).result = .error msg) :
    ∀ r ∈ (failOutcome db hash e ts te ulc ec uc eu pu).db.rows,
      r.content_hash = hash →
        r.status = .failed ∧ r.chunk_count = some 0
          ∧ r.error_message = some msg := by
  have he : e = msg := by simpa [failOutcome] using h
  subst he
  exact updateStatus_mem_some db hash .failed 0 e

lemma embedIndividuallyGo_fst (f : Str → Except Str Vec) (n : Nat) :
    ∀ (cs : List Chunk) (i : Nat),
      (embedIndividuallyGo f n i cs).1
        = cs.map (fun c =>
            match f c.pageContent with
            | .ok v => some v
            | .error _ => none) := by
  intro cs
  induction cs with
  | nil => intro i; rfl
  | cons c rest ih =>
    intro i
    rcases hf : f c.pageContent with e | v
    · simp [embedIndividuallyGo, hf, ih]
    · simp [embedIndividuallyGo, hf, ih]

lemma embedChunksIndividually_fst (f : Str → Except Str Vec) (cs : List Chunk) :
    (embedChunksIndividually f cs).1
      = cs.map (fun c =>
          match f c.pageContent with
          | .ok v => some v
          | .error _ => none) :=
  embedIndividuallyGo_fst f cs.length cs 0

lemma buildPointsGo_map (embs : List (Option Vec)) (fh fn ok : Str) (now : Nat) :
    ∀ (cs : List Chunk) (i u : Nat),
      (buildPointsGo embs fh fn ok now i u cs).map (fun p => (p.chunk_index, p.vector))
        = (List.range' i cs.length).filterMap
            (fun k => (vecAt embs k).map (fun v => (k, v))) := by
  intro cs
  induction cs with
  | nil => intro i u; rfl
  | cons c rest ih =>
    intro i u
    rcases hv : vecAt embs i with _ | v
    · simp [buildPointsGo, hv, ih, List.range'_succ]
    · simp [buildPointsGo, hv, ih, List.range'_succ]

lemma length_filterMap_opt {α β : Type} (g : α → Option β) (l : List α) :
    (l.filterMap g).length = l.countP (fun a => (g a).isSome) := by
  induction l with
  | nil => rfl
  | cons a l ih =>
    rcases hg : g a with _ | b
    · simp [List.filterMap_cons, hg, ih, List.countP_cons]
    · simp [List.filterMap_cons, hg, ih, List.countP_cons]

lemma buildPoints_length (u : Nat) (cs : List Chunk) (embs : List (Option Vec))
    (fh fn ok : Str) (now : Nat) :
    (buildPoints u cs embs fh fn ok now).length
      = (List.range cs.length).countP (fun k => (vecAt embs k).isSome) := by
  have h := congrArg List.length (buildPointsGo_map embs fh fn ok now cs 0 u)
  simp only [List.length_map] at h
  rw [buildPoints, h, length_filterMap_opt, List.range_eq_range']
  apply List.countP_congr
  intro k _
  rcases vecAt embs k with _ | v <;> simp

lemma getUploadUrl_state (presign : Str → Nat → Str) (st : SysState)
    (fileName fileHash : Str) (now : Nat) :
    (getUploadUrl presign st fileName fileHash now).2 = st := by
  rw [getUploadUrl]
  rcases findByHash st.db fileHash with _ | r
  · rfl
  · by_cases hc : r.status = .completed
    · simp [hc]
    · by_cases hp : r.status = .processing
      · simp [hc, hp]
      · simp [hc, hp]

lemma hashUnique_updateStatus (db : Db) (h : Str) (st : UploadStatus)
    (cc : Option Nat) (em : Option Str) (hu : hashUnique db) :
    hashUnique (updateStatus db h st cc em) := by
  unfold hashUnique updateStatus at *
  rw [List.pairwise_map]
  refine hu.imp_of_mem ?_
  intro a b _ _ hne
  by_cases ha : a.content_hash == h <;> by_cases hb : b.content_hash == h <;>
    simp [ha, hb, hne]

lemma hashUnique_createRecord (db : Db) (data : CreateData) (row : FileUpload)
    (db' : Db) (hok : createRecord db data = .ok (row, db'))
    (hu : hashUnique db) : hashUnique db' := by
  unfold createRecord at hok
  by_cases hg : db.rows.any (fun r =>
      r.content_hash == data.content_hash || r.job_id == data.job_id)
  · simp [hg] at hok
  · simp only [if_neg hg] at hok
    rw [Except.ok.injEq, Prod.mk.injEq] at hok
    obtain ⟨-, hdb⟩ := hok
    subst hdb
    unfold hashUnique at *
    rw [List.pairwise_append]
    refine ⟨hu, List.pairwise_singleton _ _, ?_⟩
    intro a ha b hb
    simp only [List.mem_singleton] at hb
    subst hb
    simp only [List.any_eq_true, not_exists, not_and, Bool.or_eq_true,
      not_or] at hg
    have := hg a ha
    simpa using this.1

lemma createRecord_error_of_hash (db : Db) (data : CreateData) (r : FileUpload)
    (hr : r ∈ db.rows) (hh : r.content_hash = data.content_hash) :
    createRecord db data
      = .error (s2c "unique constraint violation on file_uploads") := by
  rw [createRecord, if_pos]
  rw [List.any_eq_true]
  exact ⟨r, hr, by simp [hh]⟩

lemma triggerProcessing_db_of_exists (st : SysState)
    (objectKey fileName fileHash : Str) (userId : Option Str) (r : FileUpload)
    (hfb : findByHash st.db fileHash = some r) :
    (triggerProcessing st objectKey fileName fileHash userId).2.db = st.db := by
  have hmem : r ∈ st.db.rows := List.mem_of_find?_eq_some hfb
  have hbeq := List.find?_some hfb
  have hhash : r.content_hash = fileHash := by simpa using hbeq
  rw [triggerProcessing, hfb]
  by_cases hp : r.status = .processing
  · simp [hp]
  · have hcr := createRecord_error_of_hash st.db
      { content_hash := fileHash, original_filename := fileName
        uploaded_by := userId
        job_id := (addJob st.queue
          { objectKey := objectKey, fileHash := fileHash
            fileName := fileName, userId := userId }).1.id
        r2_object_key := objectKey, status := .processing }
      r hmem hhash
    simp [hp, hcr]

lemma process_db_shape (env : ProcEnv) (jobData : PdfJobData) (db : Db)
    (now : Nat) :
    ∃ stt cc em, (process env jobData db now).db
      = updateStatus db jobData.fileHash stt cc em := by
  rcases hdl : env.download with e | ⟨⟩
  · exact ⟨.failed, some 0, some e, by simp [process, hdl, failOutcome]⟩
  · rcases hwt : env.writeTemp with e | ⟨⟩
    · exact ⟨.failed, some 0, some e, by simp [process, hdl, hwt, failOutcome]⟩
    · rcases hld : env.loadPdf with e | docs
      · exact ⟨.failed, some 0, some e, by simp [process, hdl, hwt, hld, failOutcome]⟩
      · rcases hsp : env.split600 docs with e | chunks
        · exact ⟨.failed, some 0, some e, by simp [process, hdl, hwt, hld, hsp, failOutcome]⟩
        · rcases hul : env.unlinkTemp with e | ⟨⟩
          · exact ⟨.failed, some 0, some e,
              by simp [process, hdl, hwt, hld, hsp, hul, failOutcome]⟩
          · by_cases h5 : (validChunksOf env.split1500 chunks).length = 0
            · exact ⟨.failed, some 0, some (s2c "No valid chunks found in PDF"),
                by simp [process, hdl, hwt, hld, hsp, hul, h5, failOutcome]⟩
            · rcases hup : env.upsert (buildPoints 1 (validChunksOf env.split1500 chunks)
                  (embedStage env (validChunksOf env.split1500 chunks)).1
                  jobData.fileHash jobData.fileName jobData.objectKey now) with e | ⟨⟩
              · exact ⟨.failed, some 0, some e,
                  by simp [process, hdl, hwt, hld, hsp, hul, h5, hup, failOutcome]⟩
              · exact ⟨.completed,
                  some (buildPoints 1 (validChunksOf env.split1500 chunks)
                    (embedStage env (validChunksOf env.split1500 chunks)).1
                    jobData.fileHash jobData.fileName jobData.objectKey now).length,
                  none,
                  by simp [process, hdl, hwt, hld, hsp, hul, h5, hup]⟩

lemma hashUnique_triggerProcessing (st : SysState)
    (objectKey fileName fileHash : Str) (userId : Option Str)
    (hu : hashUnique st.db) :
    hashUnique (triggerProcessing st objectKey fileName fileHash userId).2.db := by
  rw [triggerProcessing]
  rcases hfb : findByHash st.db fileHash with _ | r
  · rcases hcr : createRecord st.db
        { content_hash := fileHash, original_filename := fileName
          uploaded_by := userId
          job_id := (addJob st.queue
            { objectKey := objectKey, fileHash := fileHash
              fileName := fileName, userId := userId }).1.id
          r2_object_key := objectKey, status := .processing }
        with e | ⟨row, db'⟩
    · simpa [hcr] using hu
    · simpa [hcr] using hashUnique_createRecord _ _ _ _ hcr hu
  · by_cases hp : r.status = .processing
    · simpa [hp] using hu
    · rcases hcr : createRecord st.db
          { content_hash := fileHash, original_filename := fileName
            uploaded_by := userId
            job_id := (addJob st.queue
              { objectKey := objectKey, fileHash := fileHash
                fileName := fileName, userId := userId }).1.id
            r2_object_key := objectKey, status := .processing }
          with e | ⟨row, db'⟩
      · simpa [hp, hcr] using hu
      · simpa [hp, hcr] using hashUnique_createRecord _ _ _ _ hcr hu

lemma hashUnique_retryJob (st : SysState) (jobId : Nat) (hu : hashUnique st.db) :
    hashUnique (retryJob st jobId).2.db := by
  rw [retryJob]
  rcases hgj : getJob st.queue jobId with _ | j
  · simpa using hu
  · by_cases hstate : j.state ≠ .failed ∧ j.state ≠ .completed
    · simpa [hstate] using hu
    · rcases hcr : createRecord st.db
          { content_hash := j.data.fileHash, original_filename := j.data.fileName
            uploaded_by := j.data.userId
            job_id := (addJob st.queue j.data).1.id
            r2_object_key := j.data.objectKey, status := .processing }
          with e | ⟨row, db'⟩
      · simpa [hstate, hcr] using hu
      · simpa [hstate, hcr] using hashUnique_createRecord _ _ _ _ hcr hu

lemma jsTrim_length_le (s : Str) : (jsTrim s).length ≤ s.length := by
  rw [jsTrim]
  calc ((s.dropWhile isJsWs).reverse.dropWhile isJsWs).reverse.length
      = ((s.dropWhile isJsWs).reverse.dropWhile isJsWs).length := by
        rw [List.length_reverse]
    _ ≤ (s.dropWhile isJsWs).reverse.length :=
        (List.dropWhile_suffix _).sublist.length_le
    _ = (s.dropWhile isJsWs).length := by rw [List.length_reverse]
    _ ≤ s.length := (List.dropWhile_suffix _).sublist.length_le

lemma chunkWindows_length_le (size stride : Nat) (hstride : 1 ≤ stride) :
    ∀ fuel s, s.length ≤ fuel →
      ∀ w ∈ chunkWindows size stride fuel s, w.length ≤ size := by
  intro fuel
  induction fuel with
  | zero =>
    intro s hs w hw
    have : s = [] := List.length_eq_zero.mp (Nat.le_zero.mp hs)
    subst this
    simp [chunkWindows] at hw
  | succ fuel ih =>
    intro s hs w hw
    rw [chunkWindows] at hw
    by_cases hnil : s = []
    · simp [hnil] at hw
    · rw [if_neg hnil] at hw
      by_cases hle : s.length ≤ size
      · rw [if_pos hle] at hw
        simp only [List.mem_singleton] at hw
        subst hw
        exact hle
      · rw [if_neg hle] at hw
        rcases List.mem_cons.mp hw with hw | hw
        · subst hw
          simp
        · refine ih (s.drop stride) ?_ w hw
          rw [List.length_drop]
          omega

lemma specSplit1500_max : ∀ c subs, specSplit1500 c = .ok subs →
    ∀ s ∈ subs, s.pageContent.length ≤ 1500 := by
  intro c subs hok s hs
  rw [specSplit1500, Except.ok.injEq] at hok
  subst hok
  rw [List.mem_map] at hs
  obtain ⟨w, hw, rfl⟩ := hs
  rw [chunkText] at hw
  exact chunkWindows_length_le 1500 (1500 - 50) (by decide) _ _ le_rfl w hw

lemma dw_repl_append (c : Char) (hc : isJsWs c = false) (n : Nat) (t : Str) :
    List.dropWhile isJsWs (List.replicate (n + 1) c ++ t)
      = List.replicate (n + 1) c ++ t := by
  rw [List.replicate_succ, List.cons_append, List.dropWhile_cons, hc]
  simp

lemma dw_repl (c : Char) (hc : isJsWs c = false) (n : Nat) :
    List.dropWhile isJsWs (List.replicate (n + 1) c)
      = List.replicate (n + 1) c := by
  rw [List.replicate_succ, List.dropWhile_cons, hc]
  simp

lemma dropWhile_ws_replicate_space (n : Nat) :
    List.dropWhile isJsWs (List.replicate n ' ') = [] := by
  induction n with
  | zero => rfl
  | succ n ih => rw [List.replicate_succ, List.dropWhile_cons]; simp [isJsWs, ih]

lemma jsTrim_eq_self_of (s : Str) (h1 : s.dropWhile isJsWs = s)
    (h2 : s.reverse.dropWhile isJsWs = s.reverse) : jsTrim s = s := by
  rw [jsTrim, h1, h2, List.reverse_reverse]

lemma c3text_length : c3text.length = 2910 := by
  rw [c3text, List.length_append, List.length_append, List.length_replicate,
    List.length_replicate, List.length_replicate]

lemma c3text_ne_nil : c3text ≠ [] := by
  intro h; have := congrArg List.length h; rw [c3text_length] at this; simp at this

lemma jsTrim_c3text : jsTrim c3text = c3text := by
  apply jsTrim_eq_self_of
  · rw [c3text]; exact dw_repl_append 'X' (by decide) 1449 _
  · rw [c3text, List.reverse_append, List.reverse_append,
      List.reverse_replicate, List.reverse_replicate, List.reverse_replicate,
      List.append_assoc]
    exact dw_repl_append 'Y' (by decide) 4 _

lemma c3_take : c3text.take 1500 = c3w1 := by
  rw [c3text, c3w1, List.take_append_eq_append_take, List.take_replicate,
    List.length_replicate, List.take_append_eq_append_take, List.take_replicate,
    List.length_replicate]
  norm_num

lemma c3_drop : c3text.drop 1450 = c3w2 := by
  rw [c3text, c3w2, List.drop_append_eq_append_drop, List.drop_replicate,
    List.length_replicate]
  norm_num

lemma c3w2_length : c3w2.length = 1460 := by
  rw [c3w2, List.length_append, List.length_replicate, List.length_replicate]

lemma c3w2_ne_nil : c3w2 ≠ [] := by
  intro h; have := congrArg List.length h; rw [c3w2_length] at this; simp at this

lemma c3_chunkText : chunkText 1500 50 c3text = [c3w1, c3w2] := by
  rw [chunkText, c3text_length, show (1500 - 50 : Nat) = 1450 from rfl]
  conv_lhs => rw [chunkWindows]
  rw [if_neg c3text_ne_nil, if_neg (by rw [c3text_length]; decide)]
  show c3text.take 1500 :: chunkWindows 1500 1450 2909 (c3text.drop 1450) = _
  rw [c3_take, c3_drop]
  conv_lhs => rw [chunkWindows]
  rw [if_neg c3w2_ne_nil, if_pos (by rw [c3w2_length]; decide)]

lemma jsTrim_c3w2 : jsTrim c3w2 = List.replicate 5 'Y' := by
  have h1 : List.dropWhile isJsWs c3w2 = List.replicate 5 'Y' := by
    rw [c3w2, List.dropWhile_append, dropWhile_ws_replicate_space]
    simp only [List.isEmpty_nil, if_true]
    exact dw_repl 'Y' (by decide) 4
  have h2 : List.dropWhile isJsWs (List.replicate 5 'Y').reverse
      = (List.replicate 5 'Y').reverse := by
    rw [List.reverse_replicate]
    exact dw_repl 'Y' (by decide) 4
  rw [jsTrim, h1, h2, List.reverse_reverse]

lemma c3_valid : validChunksOf specSplit1500 [c3chunk]
    = [⟨c3w1, some 1⟩, ⟨c3w2, some 1⟩] := by
  rw [validChunksOf]
  simp only [c3chunk, jsTrim_c3text, c3text_length]
  rw [if_neg (by decide), if_pos (by decide)]
  rw [splitOversizedChunk, specSplit1500, c3_chunkText]
  rw [validChunksOf]
  simp

/-! The claims. -/

/-- Claim C1: for every content hash, at most one `UploadRecord` exists in
the upload metadata registry at any time.  The `hashUnique` invariant is
preserved by every operation that touches records — `getUploadUrl`,
`triggerProcessing`, `retryJob` and the worker `process` (which finalizes
records) — and whenever a record with the hash already exists, a second
`triggerProcessing` call never creates a duplicate record (the unique
column rejects the insert; for an in-flight record the call
short-circuits). -/
theorem C1_hash_uniqueness (presign : Str → Nat → Str) (st : SysState)
    (fileName fileHash objectKey : Str) (userId : Option Str)
    (now jobId : Nat) (env : ProcEnv) (jobData : PdfJobData)
    (hu : hashUnique st.db) :
    hashUnique ((getUploadUrl presign st fileName fileHash now).2.db)
      ∧ hashUnique ((triggerProcessing st objectKey fileName fileHash userId).2.db)
      ∧ hashUnique ((retryJob st jobId).2.db)
      ∧ hashUnique ((process env jobData st.db now).db)
      ∧ ∀ r, findByHash st.db fileHash = some r →
          (triggerProcessing st objectKey fileName fileHash userId).2.db
            = st.db := by
  refine ⟨?_, hashUnique_triggerProcessing st objectKey fileName fileHash userId hu,
    hashUnique_retryJob st jobId hu, ?_, ?_⟩
  · rw [getUploadUrl_state]
    exact hu
  · obtain ⟨stt, cc, em, h⟩ := process_db_shape env jobData st.db now
    rw [h]
    exact hashUnique_updateStatus _ _ _ _ _ hu
  · intro r hfb
    exact triggerProcessing_db_of_exists st objectKey fileName fileHash userId r hfb

/-- Witness for C1 at the concrete state `cexState` (one failed record,
one failed job): the invariant holds before and after a `retryJob` call. -/
theorem C1_hash_uniqueness_witness :
    hashUnique cexState.db ∧ hashUnique ((retryJob cexState 0).2.db) :=
  ⟨by decide,
    (C1_hash_uniqueness wPresign cexState (s2c "f.pdf") (s2c "h") (s2c "k") none
      1 0 wEnv cexJobData (by decide)).2.2.1⟩

/-- Counterexample to claim C2 as stated: at `cexState` the job 0 is in the
terminal state `failed` and carries the payload for content hash `h`, for
which an `UploadRecord` already exists; `retryJob` does enqueue a new job
but its fresh `UploadRecord` insert violates the unique `content_hash`
column, so the call throws a database error and no record is inserted. -/
theorem C2_retry_counterexample :
    getJob cexState.queue 0
        = some { id := 0, data := cexJobData, state := .failed }
      ∧ (retryJob cexState 0).1
          = .error (.dbError (s2c "unique constraint violation on file_uploads"))
      ∧ (retryJob cexState 0).2.db = cexState.db := by
  decide

/-- Claim C2, amended: `retryJob` fails with not-found when no job with the
id exists; a job that is neither `failed` nor `completed` is rejected with
an explicit cannot-retry response and nothing changes; for a terminal job a
new job carrying the original payload is enqueued and a fresh
`UploadRecord` insert for the new job id is then attempted — it succeeds
only when the insert does not violate the unique columns (in particular,
when no record with that content hash exists), and otherwise the call
errors with the new job still enqueued and no record written. -/
theorem C2_retry_behavior (st : SysState) (jobId : Nat) :
    (getJob st.queue jobId = none → retryJob st jobId = (.error .notFound, st))
      ∧ (∀ j, getJob st.queue jobId = some j →
          j.state ≠ .failed → j.state ≠ .completed →
            retryJob st jobId = (.ok (.cannotRetry j.state), st))
      ∧ (∀ j, getJob st.queue jobId = some j →
          (j.state = .failed ∨ j.state = .completed) →
            (retryJob st jobId).2.queue = (addJob st.queue j.data).2
              ∧ (∀ row db',
                  createRecord st.db
                      (createPayload j.data (addJob st.queue j.data).1.id)
                    = .ok (row, db') →
                  retryJob st jobId
                    = (.ok (.queued (addJob st.queue j.data).1.id jobId),
                        { db := db', queue := (addJob st.queue j.data).2 }))
              ∧ (∀ e,
                  createRecord st.db
                      (createPayload j.data (addJob st.queue j.data).1.id)
                    = .error e →
                  retryJob st jobId
                    = (.error (.dbError e),
                        { db := st.db, queue := (addJob st.queue j.data).2 }))) := by
  refine ⟨?_, ?_, ?_⟩
  · intro hn
    simp [retryJob, hn]
  · intro j hj hf hc
    simp [retryJob, hj, hf, hc]
  · intro j hj hterm
    have hcond : ¬ (j.state ≠ .failed ∧ j.state ≠ .completed) := by
      rcases hterm with h | h <;> simp [h]
    refine ⟨?_, ?_, ?_⟩
    · rcases hcr : createRecord st.db (createPayload j.data (addJob st.queue j.data).1.id)
          with e | ⟨row, db'⟩
      · simp [retryJob, hj, hcond, createPayload, addJob] at hcr ⊢
        simp [hcr]
      · simp [retryJob, hj, hcond, createPayload, addJob] at hcr ⊢
        simp [hcr]
    · intro row db' hcr
      simp [retryJob, hj, hcond, createPayload, addJob] at hcr ⊢
      simp [hcr]
    · intro e hcr
      simp [retryJob, hj, hcond, createPayload, addJob] at hcr ⊢
      simp [hcr]

/-- Witness for C2 at the concrete state `wActiveState`: retrying the
`active` job 3 is rejected with the explicit cannot-retry response and the
state is unchanged (spec scenario F). -/
theorem C2_retry_behavior_witness :
    retryJob wActiveState 3 = (.ok (.cannotRetry .active), wActiveState) :=
  (C2_retry_behavior wActiveState 3).2.1
    { id := 3, data := cexJobData, state := .active } (by decide) (by decide)
    (by decide)

/-- Counterexample to claim C3 as stated: the single oversized chunk
`c3chunk` (2910 characters, trimmed) is re-split by the 1500/50 chunker
without any exception, yet the second resulting chunk trims to 5
characters — shorter than 10 — because the validate-and-split loop never
re-checks the sub-chunks produced by a re-split against the lower bound.
So not every resulting chunk has trimmed length in [10, 1500] modulo the
fallback-to-original exception. -/
theorem C3_validate_split_counterexample :
    ¬ ∀ c ∈ validChunksOf specSplit1500 [c3chunk],
        10 ≤ (jsTrim c.pageContent).length
          ∧ (jsTrim c.pageContent).length ≤ 1500 := by
  intro h
  have hm : (⟨c3w2, some 1⟩ : Chunk) ∈ validChunksOf specSplit1500 [c3chunk] := by
    rw [c3_valid]; simp
  have := (h _ hm).1
  rw [show ((⟨c3w2, some 1⟩ : Chunk)).pageContent = c3w2 from rfl,
    jsTrim_c3w2] at this
  simp at this

/-- Claim C3, amended: the validate-and-split step drops every chunk whose
trimmed text is shorter than 10 characters, re-splits every chunk whose
trimmed length exceeds 1500 characters with the 1500/50 chunking algorithm
(keeping the trimmed original if re-splitting throws), and keeps every
other chunk trimmed.  Consequently — provided the chunker respects its
1500-character maximum — every chunk in the result has trimmed length at
most 1500 unless it is a fallback-kept original; kept unsplit chunks also
satisfy the lower bound 10, but sub-chunks of a re-split may trim below 10
(see the counterexample). -/
theorem C3_validate_split (split1500 : Chunk → Except Str (List Chunk))
    (chunks : List Chunk)
    (hmax : ∀ c subs, split1500 c = .ok subs →
      ∀ s ∈ subs, s.pageContent.length ≤ 1500) :
    (∀ c cs, (jsTrim c.pageContent).length < 10 →
        validChunksOf split1500 (c :: cs) = validChunksOf split1500 cs)
      ∧ (∀ c cs, (jsTrim c.pageContent).length > 1500 →
          validChunksOf split1500 (c :: cs)
            = splitOversizedChunk split1500
                { pageContent := jsTrim c.pageContent
                  locPageNumber := c.locPageNumber }
              ++ validChunksOf split1500 cs)
      ∧ (∀ c cs, 10 ≤ (jsTrim c.pageContent).length →
          (jsTrim c.pageContent).length ≤ 1500 →
          validChunksOf split1500 (c :: cs)
            = { pageContent := jsTrim c.pageContent
                locPageNumber := c.locPageNumber } :: validChunksOf split1500 cs)
      ∧ (∀ c ∈ validChunksOf split1500 chunks,
          (jsTrim c.pageContent).length ≤ 1500
            ∨ ∃ e, split1500 c = .error e) := by
  refine ⟨?_, ?_, ?_, ?_⟩
  · intro c cs h
    simp [validChunksOf, h]
  · intro c cs h
    have h10 : ¬ (jsTrim c.pageContent).length < 10 := by omega
    have h1500 : (jsTrim c.pageContent).length > 1500 := h
    simp [validChunksOf, h10, h1500]
  · intro c cs h10 h1500
    have h10' : ¬ (jsTrim c.pageContent).length < 10 := by omega
    have h1500' : ¬ (jsTrim c.pageContent).length > 1500 := by omega
    simp [validChunksOf, h10', h1500']
  · induction chunks with
    | nil => intro c hc; simp [validChunksOf] at hc
    | cons d rest ih =>
      intro c hc
      rw [validChunksOf] at hc
      by_cases h10 : (jsTrim d.pageContent).length < 10
      · rw [if_pos h10] at hc
        exact ih c hc
      · rw [if_neg h10] at hc
        by_cases h1500 : (jsTrim d.pageContent).length > 1500
        · rw [if_pos h1500] at hc
          rw [List.mem_append] at hc
          rcases hc with hc | hc
          · rw [splitOversizedChunk] at hc
            rcases hsp : split1500 ⟨jsTrim d.pageContent, d.locPageNumber⟩
                with e | subs
            · rw [hsp] at hc
              simp only [List.mem_singleton] at hc
              subst hc
              exact .inr ⟨e, hsp⟩
            · rw [hsp] at hc
              have := hmax _ _ hsp c hc
              exact .inl (le_trans (jsTrim_length_le _) this)
          · exact ih c hc
        · rw [if_neg h1500] at hc
          rcases List.mem_cons.mp hc with hc | hc
          · subst hc
            simp only
            exact .inl (le_trans (jsTrim_length_le _) (by omega))
          · exact ih c hc

/-- Witness for C3 with the spec-modelled 1500/50 chunker (which provably
respects its maximum, `specSplit1500_max`): a chunk whose trimmed text is
shorter than 10 characters is dropped. -/
theorem C3_validate_split_witness :
    (jsTrim (s2c "  hi  ")).length < 10
      ∧ validChunksOf specSplit1500
            [{ pageContent := s2c "  hi  ", locPageNumber := none }]
          = validChunksOf specSplit1500 [] :=
  ⟨by decide,
    (C3_validate_split specSplit1500 [] specSplit1500_max).1
      { pageContent := s2c "  hi  ", locPageNumber := none } [] (by decide)⟩

/-- Claim C4: when the batched embedding call fails, the worker embeds each
valid chunk individually in input order; the vector list it then works from
has exactly the length of the valid-chunk list and holds `none` exactly at
the positions whose individual `embedQuery` call failed (and the vector
elsewhere); and a per-chunk failure never aborts the job — any error result
of `process` past this point comes from the upsert call, not from
embedding. -/
theorem C4_embedding_fallback (env : ProcEnv) (jobData : PdfJobData) (db : Db)
    (now : Nat) (docs chunks : List Chunk) (e : Str)
    (h1 : env.download = .ok ()) (h2 : env.writeTemp = .ok ())
    (h3 : env.loadPdf = .ok docs) (h4 : env.split600 docs = .ok chunks)
    (hul : env.unlinkTemp = .ok ())
    (h5 : validChunksOf env.split1500 chunks ≠ [])
    (h6 : env.embedBatch ((validChunksOf env.split1500 chunks).map
            (fun c => c.pageContent)) = .error e) :
    (process env jobData db now).embeddingsUsed
        = (validChunksOf env.split1500 chunks).map (fun c =>
            match env.embedOne c.pageContent with
            | .ok v => some v
            | .error _ => none)
      ∧ (process env jobData db now).embeddingsUsed.length
          = (validChunksOf env.split1500 chunks).length
      ∧ ∀ msg, (process env jobData db now).result = .error msg →
          env.upsert (buildPoints 1 (validChunksOf env.split1500 chunks)
            (process env jobData db now).embeddingsUsed
            jobData.fileHash jobData.fileName jobData.objectKey now)
              = .error msg := by
  have h5' : ¬ (validChunksOf env.split1500 chunks).length = 0 := by
    simpa [List.length_eq_zero] using h5
  have hstage : (embedStage env (validChunksOf env.split1500 chunks)).1
      = (embedChunksIndividually env.embedOne
          (validChunksOf env.split1500 chunks)).1 := by
    simp [embedStage, h6]
  have hPE : (process env jobData db now).embeddingsUsed
      = (embedStage env (validChunksOf env.split1500 chunks)).1 := by
    rcases hup : env.upsert (buildPoints 1 (validChunksOf env.split1500 chunks)
        (embedStage env (validChunksOf env.split1500 chunks)).1
        jobData.fileHash jobData.fileName jobData.objectKey now) with e' | ⟨⟩
    · simp [process, h1, h2, h3, h4, hul, h5', hup, failOutcome]
    · simp [process, h1, h2, h3, h4, hul, h5', hup]
  have hE : (process env jobData db now).embeddingsUsed
      = (validChunksOf env.split1500 chunks).map (fun c =>
          match env.embedOne c.pageContent with
          | .ok v => some v
          | .error _ => none) := by
    rw [hPE, hstage, embedChunksIndividually_fst]
  refine ⟨hE, by rw [hE]; simp, ?_⟩
  intro msg hmsg
  rw [hE, ← embedChunksIndividually_fst, ← hstage]
  rcases hup : env.upsert (buildPoints 1 (validChunksOf env.split1500 chunks)
      (embedStage env (validChunksOf env.split1500 chunks)).1
      jobData.fileHash jobData.fileName jobData.objectKey now) with e' | ⟨⟩
  · have hp : (process env jobData db now).result = .error e' := by
      simp [process, h1, h2, h3, h4, hul, h5', hup, failOutcome]
    rw [hp] at hmsg
    cases hmsg
    rfl
  · have hp : (process env jobData db now).result
        = .ok { status := s2c "success"
                totalChunks := chunks.length
                processedChunks := (buildPoints 1 (validChunksOf env.split1500 chunks)
                  (embedStage env (validChunksOf env.split1500 chunks)).1
                  jobData.fileHash jobData.fileName jobData.objectKey now).length
                fileHash := jobData.fileHash } := by
      simp [process, h1, h2, h3, h4, hul, h5', hup]
    rw [hp] at hmsg
    exact Except.noConfusion hmsg

/-- Witness for C4 at the concrete environment `w4Env` (batch call fails,
per-chunk embedding fails exactly on the first chunk): the vector list used
downstream is the pointwise fallback result `[none, some [7]]`. -/
theorem C4_embedding_fallback_witness :
    validChunksOf w4Env.split1500 [w4ChunkA, w4ChunkB] ≠ []
      ∧ (process w4Env cexJobData wDb 1).embeddingsUsed
          = (validChunksOf w4Env.split1500 [w4ChunkA, w4ChunkB]).map (fun c =>
              match w4Env.embedOne c.pageContent with
              | .ok v => some v
              | .error _ => none) :=
  ⟨by decide,
    (C4_embedding_fallback w4Env cexJobData wDb 1 [w4ChunkA, w4ChunkB]
      [w4ChunkA, w4ChunkB] (s2c "batch down") rfl rfl rfl rfl rfl (by decide)
      (by decide)).1⟩

/-- Claim C5: for a job that reaches the persist stage, exactly one
vector-store point is built per chunk with a non-null vector (the pairs
(chunk index, vector) of the built points are exactly the non-null entries
of the vector list, in order), all points are upserted in one single call,
and the `chunk_count` written to the completed record — like the
`processedChunks` of the job return value — equals exactly the number of
chunks with a non-null vector. -/
theorem C5_persist_and_finalize (env : ProcEnv) (jobData : PdfJobData)
    (db : Db) (now : Nat) (docs chunks : List Chunk)
    (h1 : env.download = .ok ()) (h2 : env.writeTemp = .ok ())
    (h3 : env.loadPdf = .ok docs) (h4 : env.split600 docs = .ok chunks)
    (hul : env.unlinkTemp = .ok ())
    (h5 : validChunksOf env.split1500 chunks ≠ [])
    (hup : env.upsert (buildPoints 1 (validChunksOf env.split1500 chunks)
        (embedStage env (validChunksOf env.split1500 chunks)).1
        jobData.fileHash jobData.fileName jobData.objectKey now) = .ok ()) :
    (process env jobData db now).upsertCalls
        = [buildPoints 1 (validChunksOf env.split1500 chunks)
            (embedStage env (validChunksOf env.split1500 chunks)).1
            jobData.fileHash jobData.fileName jobData.objectKey now]
      ∧ (buildPoints 1 (validChunksOf env.split1500 chunks)
            (embedStage env (validChunksOf env.split1500 chunks)).1
            jobData.fileHash jobData.fileName jobData.objectKey now).map
              (fun p => (p.chunk_index, p.vector))
          = (List.range (validChunksOf env.split1500 chunks).length).filterMap
              (fun k => (vecAt (embedStage env (validChunksOf env.split1500 chunks)).1 k).map
                (fun v => (k, v)))
      ∧ (buildPoints 1 (validChunksOf env.split1500 chunks)
            (embedStage env (validChunksOf env.split1500 chunks)).1
            jobData.fileHash jobData.fileName jobData.objectKey now).length
          = (List.range (validChunksOf env.split1500 chunks).length).countP
              (fun k => (vecAt (embedStage env (validChunksOf env.split1500 chunks)).1 k).isSome)
      ∧ (process env jobData db now).result
          = .ok { status := s2c "success"
                  totalChunks := chunks.length
                  processedChunks := (buildPoints 1 (validChunksOf env.split1500 chunks)
                    (embedStage env (validChunksOf env.split1500 chunks)).1
                    jobData.fileHash jobData.fileName jobData.objectKey now).length
                  fileHash := jobData.fileHash }
      ∧ ∀ r ∈ (process env jobData db now).db.rows,
          r.content_hash = jobData.fileHash →
            r.status = .completed
              ∧ r.chunk_count = some (buildPoints 1 (validChunksOf env.split1500 chunks)
                  (embedStage env (validChunksOf env.split1500 chunks)).1
                  jobData.fileHash jobData.fileName jobData.objectKey now).length := by
  have h5' : ¬ (validChunksOf env.split1500 chunks).length = 0 := by
    simpa [List.length_eq_zero] using h5
  have hcalls : (process env jobData db now).upsertCalls
      = [buildPoints 1 (validChunksOf env.split1500 chunks)
          (embedStage env (validChunksOf env.split1500 chunks)).1
          jobData.fileHash jobData.fileName jobData.objectKey now] := by
    simp [process, h1, h2, h3, h4, hul, h5', hup]
  have hres : (process env jobData db now).result
      = .ok { status := s2c "success"
              totalChunks := chunks.length
              processedChunks := (buildPoints 1 (validChunksOf env.split1500 chunks)
                (embedStage env (validChunksOf env.split1500 chunks)).1
                jobData.fileHash jobData.fileName jobData.objectKey now).length
              fileHash := jobData.fileHash } := by
    simp [process, h1, h2, h3, h4, hul, h5', hup]
  have hdb : (process env jobData db now).db
      = updateStatus db jobData.fileHash .completed
          (some (buildPoints 1 (validChunksOf env.split1500 chunks)
            (embedStage env (validChunksOf env.split1500 chunks)).1
            jobData.fileHash jobData.fileName jobData.objectKey now).length) none := by
    simp [process, h1, h2, h3, h4, hul, h5', hup]
  refine ⟨hcalls, ?_, ?_, hres, ?_⟩
  · rw [buildPoints, buildPointsGo_map, List.range_eq_range']
  · exact buildPoints_length _ _ _ _ _ _ _
  · rw [hdb]
    exact updateStatus_mem_completed db jobData.fileHash _

/-- Witness for C5 at the all-success environment `w5Env`: the two points
built from the two valid chunks are upserted in exactly one call. -/
theorem C5_persist_and_finalize_witness :
    w5Env.upsert (buildPoints 1 (validChunksOf w5Env.split1500 [w4ChunkA, w4ChunkB])
        (embedStage w5Env (validChunksOf w5Env.split1500 [w4ChunkA, w4ChunkB])).1
        cexJobData.fileHash cexJobData.fileName cexJobData.objectKey 1) = .ok ()
      ∧ (process w5Env cexJobData wDb 1).upsertCalls
          = [buildPoints 1 (validChunksOf w5Env.split1500 [w4ChunkA, w4ChunkB])
              (embedStage w5Env (validChunksOf w5Env.split1500 [w4ChunkA, w4ChunkB])).1
              cexJobData.fileHash cexJobData.fileName cexJobData.objectKey 1] :=
  ⟨rfl,
    (C5_persist_and_finalize w5Env cexJobData wDb 1 [w4ChunkA, w4ChunkB]
      [w4ChunkA, w4ChunkB] rfl rfl rfl rfl rfl (by decide) rfl).1⟩

/-- Claim C6: when zero valid chunks remain after the validate-and-split
step, the job fails with the empty-document error before any embedding call
is made, every record of that content hash is marked `failed` carrying the
exception message, and the error is re-raised (the result of `process` is
that error, which the job queue records as the job failure). -/
theorem C6_empty_document (env : ProcEnv) (jobData : PdfJobData) (db : Db)
    (now : Nat) (docs chunks : List Chunk)
    (h1 : env.download = .ok ()) (h2 : env.writeTemp = .ok ())
    (h3 : env.loadPdf = .ok docs) (h4 : env.split600 docs = .ok chunks)
    (hul : env.unlinkTemp = .ok ())
    (h5 : validChunksOf env.split1500 chunks = []) :
    (process env jobData db now).result
        = .error (s2c "No valid chunks found in PDF")
      ∧ (process env jobData db now).embedCalls = 0
      ∧ ∀ r ∈ (process env jobData db now).db.rows,
          r.content_hash = jobData.fileHash →
            r.status = .failed
              ∧ r.error_message = some (s2c "No valid chunks found in PDF") := by
  have hp : process env jobData db now
      = failOutcome db jobData.fileHash (s2c "No valid chunks found in PDF")
          false false env.unlinkTempInCatch 0 [] [] [10, 30] := by
    simp [process, h1, h2, h3, h4, hul, h5]
  refine ⟨by rw [hp]; rfl, by rw [hp]; rfl, ?_⟩
  rw [hp]
  intro r hr hh
  have h := updateStatus_mem_some db jobData.fileHash .failed 0 _ r hr hh
  exact ⟨h.1, h.2.2⟩

/-- Witness for C6 at the environment `w6Env`, whose extracted document
trims below 10 characters: the job fails with the empty-document error. -/
theorem C6_empty_document_witness :
    validChunksOf w6Env.split1500
        [{ pageContent := s2c "hi", locPageNumber := some 1 }] = []
      ∧ (process w6Env cexJobData wDb 1).result
          = .error (s2c "No valid chunks found in PDF") :=
  ⟨by decide,
    (C6_empty_document w6Env cexJobData wDb 1 _ _ rfl rfl rfl rfl rfl (by decide)).1⟩

/-- Counterexample to claim C7 as stated: in `c7Env` the PDF load throws
while the temp file is on disk, and the catch-block `fs.unlink` then fails
too; the catch swallows that unlink error (the job still fails with the
original parse error), so this exit path leaves the temporary file in
existence — deletion is attempted but not guaranteed on every exit path. -/
theorem C7_temp_file_counterexample :
    (process c7Env cexJobData wDb 1).result = .error (s2c "parse fail")
      ∧ (process c7Env cexJobData wDb 1).tempFileExists = true := by
  decide

/-- Claim C7, amended: the worker attempts to delete the temporary file on
every exit path on which it may still exist — the success path unlinks it
right after chunking, and the catch block unlinks it whenever `tempPath` is
still set.  Whenever the catch-block unlink succeeds the file never
survives, and on a successful run the file is gone regardless of the catch
oracle; conversely the file can only survive an exit when the catch-block
`fs.unlink` itself failed (its error is swallowed).  Moreover the
post-chunking unlink is unguarded inside the try, so its own failure
aborts a would-be-successful job with that unlink error. -/
theorem C7_temp_file_released (env : ProcEnv) (jobData : PdfJobData) (db : Db)
    (now : Nat) :
    (env.unlinkTempInCatch = .ok () →
        (process env jobData db now).tempFileExists = false)
      ∧ (∀ res, (process env jobData db now).result = .ok res →
          (process env jobData db now).tempFileExists = false)
      ∧ ((process env jobData db now).tempFileExists = true →
          ∃ e, env.unlinkTempInCatch = .error e)
      ∧ (∀ docs chunks e, env.download = .ok () → env.writeTemp = .ok () →
          env.loadPdf = .ok docs → env.split600 docs = .ok chunks →
          env.unlinkTemp = .error e →
          (process env jobData db now).result = .error e) := by
  have hcatchok : env.unlinkTempInCatch = .ok () →
      (process env jobData db now).tempFileExists = false := by
    intro hcat
    rcases hdl : env.download with e | ⟨⟩
    · simp [process, hdl, failOutcome, hcat]
    · rcases hwt : env.writeTemp with e | ⟨⟩
      · simp [process, hdl, hwt, failOutcome, hcat]
      · rcases hld : env.loadPdf with e | docs
        · simp [process, hdl, hwt, hld, failOutcome, hcat]
        · rcases hsp : env.split600 docs with e | chunks
          · simp [process, hdl, hwt, hld, hsp, failOutcome, hcat]
          · rcases hul : env.unlinkTemp with e | ⟨⟩
            · simp [process, hdl, hwt, hld, hsp, hul, failOutcome, hcat]
            · by_cases h5 : (validChunksOf env.split1500 chunks).length = 0
              · simp [process, hdl, hwt, hld, hsp, hul, h5, failOutcome, hcat]
              · rcases hup : env.upsert (buildPoints 1 (validChunksOf env.split1500 chunks)
                    (embedStage env (validChunksOf env.split1500 chunks)).1
                    jobData.fileHash jobData.fileName jobData.objectKey now) with e | ⟨⟩
                · simp [process, hdl, hwt, hld, hsp, hul, h5, hup, failOutcome, hcat]
                · simp [process, hdl, hwt, hld, hsp, hul, h5, hup]
  refine ⟨hcatchok, ?_, ?_, ?_⟩
  · intro res hres
    rcases hdl : env.download with e | ⟨⟩
    · rw [show (process env jobData db now).result
          = (failOutcome db jobData.fileHash e false false
              env.unlinkTempInCatch 0 [] [] [10]).result
          from by simp [process, hdl]] at hres
      exact absurd hres (by simp [failOutcome])
    · rcases hwt : env.writeTemp with e | ⟨⟩
      · rw [show (process env jobData db now).result
            = (failOutcome db jobData.fileHash e true false
                env.unlinkTempInCatch 0 [] [] [10]).result
            from by simp [process, hdl, hwt]] at hres
        exact absurd hres (by simp [failOutcome])
      · rcases hld : env.loadPdf with e | docs
        · rw [show (process env jobData db now).result
              = (failOutcome db jobData.fileHash e true true
                  env.unlinkTempInCatch 0 [] [] [10, 30]).result
              from by simp [process, hdl, hwt, hld]] at hres
          exact absurd hres (by simp [failOutcome])
        · rcases hsp : env.split600 docs with e | chunks
          · rw [show (process env jobData db now).result
                = (failOutcome db jobData.fileHash e true true
                    env.unlinkTempInCatch 0 [] [] [10, 30]).result
                from by simp [process, hdl, hwt, hld, hsp]] at hres
            exact absurd hres (by simp [failOutcome])
          · rcases hul : env.unlinkTemp with e | ⟨⟩
            · rw [show (process env jobData db now).result
                  = (failOutcome db jobData.fileHash e true true
                      env.unlinkTempInCatch 0 [] [] [10, 30]).result
                  from by simp [process, hdl, hwt, hld, hsp, hul]] at hres
              exact absurd hres (by simp [failOutcome])
            · by_cases h5 : (validChunksOf env.split1500 chunks).length = 0
              · rw [show (process env jobData db now).result
                    = (failOutcome db jobData.fileHash
                        (s2c "No valid chunks found in PDF") false false
                        env.unlinkTempInCatch 0 [] [] [10, 30]).result
                    from by simp [process, hdl, hwt, hld, hsp, hul, h5]] at hres
                exact absurd hres (by simp [failOutcome])
              · rcases hup : env.upsert (buildPoints 1 (validChunksOf env.split1500 chunks)
                    (embedStage env (validChunksOf env.split1500 chunks)).1
                    jobData.fileHash jobData.fileName jobData.objectKey now) with e | ⟨⟩
                · rw [show (process env jobData db now).result
                      = (failOutcome db jobData.fileHash e false false
                          env.unlinkTempInCatch
                          (embedStage env (validChunksOf env.split1500 chunks)).2.1
                          [buildPoints 1 (validChunksOf env.split1500 chunks)
                            (embedStage env (validChunksOf env.split1500 chunks)).1
                            jobData.fileHash jobData.fileName jobData.objectKey now]
                          (embedStage env (validChunksOf env.split1500 chunks)).1
                          ([10, 30, 50]
                            ++ (embedStage env (validChunksOf env.split1500 chunks)).2.2
                            ++ [80])).result
                      from by simp [process, hdl, hwt, hld, hsp, hul, h5, hup]] at hres
                  exact absurd hres (by simp [failOutcome])
                · simp [process, hdl, hwt, hld, hsp, hul, h5, hup]
  · intro htrue
    rcases huc : env.unlinkTempInCatch with e | ⟨⟩
    · exact ⟨e, rfl⟩
    · rw [hcatchok huc] at htrue
      exact absurd htrue (by simp)
  · intro docs chunks e h1 h2 h3 h4 hue
    simp [process, h1, h2, h3, h4, hue, failOutcome]

/-- Witness for the amended C7 at the all-success environment `wEnv`: the
temp file does not survive the run. -/
theorem C7_temp_file_released_witness :
    (process wEnv cexJobData wDb 1).tempFileExists = false :=
  (C7_temp_file_released wEnv cexJobData wDb 1).1 rfl

/-- Claim C8: `getUploadUrl` never writes a record (the state is returned
unchanged); a `completed` record for the hash yields the duplicate result
referencing the existing record with skip-upload set; a `processing` record
yields the in-flight result carrying the current job id with skip-upload
set; otherwise (no record, or a `failed` record) it returns the object key
`pdfs/{hash}-{now}-{filename}` derived deterministically from the hash, the
timestamp and the filename, together with a presigned URL issued for expiry
3600 seconds (one hour). -/
theorem C8_request_upload (presign : Str → Nat → Str) (st : SysState)
    (fileName fileHash : Str) (now : Nat) :
    (getUploadUrl presign st fileName fileHash now).2 = st
      ∧ (∀ r, findByHash st.db fileHash = some r → r.status = .completed →
          (getUploadUrl presign st fileName fileHash now).1
            = .duplicate
                (s2c "File already processed as \"" ++ r.original_filename
                  ++ s2c "\"")
                true r)
      ∧ (∀ r, findByHash st.db fileHash = some r → r.status = .processing →
          (getUploadUrl presign st fileName fileHash now).1
            = .inFlight (s2c "File is currently being processed") r.job_id true)
      ∧ ((findByHash st.db fileHash = none
            ∨ ∃ r, findByHash st.db fileHash = some r ∧ r.status = .failed) →
          (getUploadUrl presign st fileName fileHash now).1
            = .uploadTarget
                (presign (s2c "pdfs/" ++ fileHash ++ s2c "-" ++ Nat.toDigits 10 now
                  ++ s2c "-" ++ fileName) 3600)
                (s2c "pdfs/" ++ fileHash ++ s2c "-" ++ Nat.toDigits 10 now
                  ++ s2c "-" ++ fileName)
                fileHash 3600) := by
  refine ⟨getUploadUrl_state presign st fileName fileHash now, ?_, ?_, ?_⟩
  · intro r hr hc
    simp [getUploadUrl, hr, hc]
  · intro r hr hp
    have hc : r.status ≠ .completed := by rw [hp]; decide
    simp [getUploadUrl, hr, hp, hc]
  · rintro (hn | ⟨r, hr, hf⟩)
    · simp [getUploadUrl, hn, storageGetUploadUrl]
    · have hc : r.status ≠ .completed := by rw [hf]; decide
      have hp : r.status ≠ .processing := by rw [hf]; decide
      simp [getUploadUrl, hr, hc, hp, storageGetUploadUrl]

/-- Witness for C8 at `w8State`, which holds a completed record for the
hash: the duplicate result referencing that record is returned. -/
theorem C8_request_upload_witness :
    findByHash w8State.db (s2c "h") = some w8Row
      ∧ (getUploadUrl wPresign w8State (s2c "f.pdf") (s2c "h") 1).1
          = .duplicate
              (s2c "File already processed as \"" ++ w8Row.original_filename
                ++ s2c "\"")
              true w8Row :=
  ⟨by decide,
    (C8_request_upload wPresign w8State (s2c "f.pdf") (s2c "h") 1).2.1 w8Row
      (by decide) (by decide)⟩

/-- Counterexample to claim C9 as stated: at `cexState` a `failed` (not
`processing`) record exists for hash `h`, so `triggerProcessing` takes the
"otherwise" path and enqueues a job, but the subsequent `UploadRecord`
insert violates the unique `content_hash` column and the call errors with
no record created — the claim promises a created record on every
non-short-circuited call. -/
theorem C9_trigger_counterexample :
    findByHash cexState.db (s2c "h") = some cexRow
      ∧ cexRow.status ≠ .processing
      ∧ (triggerProcessing cexState (s2c "k2") (s2c "f.pdf") (s2c "h") none).1
          = .error (s2c "unique constraint violation on file_uploads")
      ∧ (triggerProcessing cexState (s2c "k2") (s2c "f.pdf") (s2c "h") none).2.db
          = cexState.db
      ∧ (triggerProcessing cexState (s2c "k2") (s2c "f.pdf") (s2c "h") none).2.queue.jobs.length
          = cexState.queue.jobs.length + 1 := by
  decide

/-- Claim C9, amended: `triggerProcessing` short-circuits with the existing
job id when a `processing` record for the hash exists, without touching the
state; otherwise it enqueues the job first and only then attempts to create
the `UploadRecord` in `processing` state referencing the new job id — the
creation succeeds exactly when the insert does not violate the unique
columns (in particular when no record with that hash exists); when a
`completed` or `failed` record for the hash already exists the insert
errors, with the new job left enqueued and no record written. -/
theorem C9_trigger_processing (st : SysState) (objectKey fileName fileHash : Str)
    (userId : Option Str) :
    (∀ r, findByHash st.db fileHash = some r → r.status = .processing →
        triggerProcessing st objectKey fileName fileHash userId
          = (.ok (.alreadyProcessing r.job_id), st))
      ∧ ((∀ r, findByHash st.db fileHash = some r → r.status ≠ .processing) →
          (triggerProcessing st objectKey fileName fileHash userId).2.queue
              = (addJob st.queue
                  { objectKey := objectKey, fileHash := fileHash
                    fileName := fileName, userId := userId }).2
            ∧ (∀ row db',
                createRecord st.db
                    (createPayload
                      { objectKey := objectKey, fileHash := fileHash
                        fileName := fileName, userId := userId }
                      (addJob st.queue
                        { objectKey := objectKey, fileHash := fileHash
                          fileName := fileName, userId := userId }).1.id)
                  = .ok (row, db') →
                triggerProcessing st objectKey fileName fileHash userId
                  = (.ok (.queued (addJob st.queue
                        { objectKey := objectKey, fileHash := fileHash
                          fileName := fileName, userId := userId }).1.id),
                      { db := db'
                        queue := (addJob st.queue
                          { objectKey := objectKey, fileHash := fileHash
                            fileName := fileName, userId := userId }).2 }))
            ∧ (∀ e,
                createRecord st.db
                    (createPayload
                      { objectKey := objectKey, fileHash := fileHash
                        fileName := fileName, userId := userId }
                      (addJob st.queue
                        { objectKey := objectKey, fileHash := fileHash
                          fileName := fileName, userId := userId }).1.id)
                  = .error e →
                triggerProcessing st objectKey fileName fileHash userId
                  = (.error e,
                      { db := st.db
                        queue := (addJob st.queue
                          { objectKey := objectKey, fileHash := fileHash
                            fileName := fileName, userId := userId }).2 }))) := by
  constructor
  · intro r hr hp
    simp [triggerProcessing, hr, hp]
  · intro hnp
    rcases hfb : findByHash st.db fileHash with _ | r
    · refine ⟨?_, ?_, ?_⟩
      · rcases hcr : createRecord st.db (createPayload
            { objectKey := objectKey, fileHash := fileHash
              fileName := fileName, userId := userId }
            (addJob st.queue
              { objectKey := objectKey, fileHash := fileHash
                fileName := fileName, userId := userId }).1.id) with e | ⟨row, db'⟩
        · simp [triggerProcessing, hfb, createPayload, addJob] at hcr ⊢
          simp [hcr]
        · simp [triggerProcessing, hfb, createPayload, addJob] at hcr ⊢
          simp [hcr]
      · intro row db' hcr
        simp [triggerProcessing, hfb, createPayload, addJob] at hcr ⊢
        simp [hcr]
      · intro e hcr
        simp [triggerProcessing, hfb, createPayload, addJob] at hcr ⊢
        simp [hcr]
    · have hnpr : r.status ≠ .processing := hnp r hfb
      refine ⟨?_, ?_, ?_⟩
      · rcases hcr : createRecord st.db (createPayload
            { objectKey := objectKey, fileHash := fileHash
              fileName := fileName, userId := userId }
            (addJob st.queue
              { objectKey := objectKey, fileHash := fileHash
                fileName := fileName, userId := userId }).1.id) with e | ⟨row, db'⟩
        · simp [triggerProcessing, hfb, hnpr, createPayload, addJob] at hcr ⊢
          simp [hcr]
        · simp [triggerProcessing, hfb, hnpr, createPayload, addJob] at hcr ⊢
          simp [hcr]
      · intro row db' hcr
        simp [triggerProcessing, hfb, hnpr, createPayload, addJob] at hcr ⊢
        simp [hcr]
      · intro e hcr
        simp [triggerProcessing, hfb, hnpr, createPayload, addJob] at hcr ⊢
        simp [hcr]

/-- Witness for C9 at the empty state: the job is enqueued (id 0) and the
record insert succeeds, yielding the queued result and the new `processing`
record referencing job 0. -/
theorem C9_trigger_processing_witness :
    triggerProcessing w9State (s2c "k") (s2c "f.pdf") (s2c "h") none
      = (.ok (.queued 0),
          { db := { rows := [{ id := 0, content_hash := s2c "h"
                               original_filename := s2c "f.pdf"
                               uploaded_by := none, job_id := 0
                               r2_object_key := s2c "k", status := .processing
                               chunk_count := none, error_message := none }]
                    nextId := 1 }
            queue := { jobs := [{ id := 0
                                  data := { objectKey := s2c "k", fileHash := s2c "h"
                                            fileName := s2c "f.pdf", userId := none }
                                  state := .queued }]
                       nextJobId := 1 } }) :=
  ((C9_trigger_processing w9State (s2c "k") (s2c "f.pdf") (s2c "h") none).2
    (fun r hr => nomatch hr)).2.1
    { id := 0, content_hash := s2c "h", original_filename := s2c "f.pdf"
      uploaded_by := none, job_id := 0, r2_object_key := s2c "k"
      status := .processing, chunk_count := none, error_message := none }
    { rows := [{ id := 0, content_hash := s2c "h", original_filename := s2c "f.pdf"
                 uploaded_by := none, job_id := 0, r2_object_key := s2c "k"
                 status := .processing, chunk_count := none, error_message := none }]
      nextId := 1 }
    (by decide)

/-- Claim C10: whenever `process` ends in an error, the failure handler
writes `chunk_count = 0` — not null, and overwriting any previous value —
onto every record of that content hash, together with `status = failed` and
the error message. -/
theorem C10_failed_chunk_count_zero (env : ProcEnv) (jobData : PdfJobData)
    (db : Db) (now : Nat) (msg : Str)
    (h : (process env jobData db now).result = .error msg) :
    ∀ r ∈ (process env jobData db now).db.rows,
      r.content_hash = jobData.fileHash →
        r.status = .failed ∧ r.chunk_count = some 0
          ∧ r.error_message = some msg := by
  rcases hdl : env.download with e | ⟨⟩
  · have hp : process env jobData db now
        = failOutcome db jobData.fileHash e false false
            env.unlinkTempInCatch 0 [] [] [10] := by
      simp [process, hdl]
    rw [hp] at h ⊢
    exact failOutcome_rows _ _ _ _ _ _ _ _ _ _ _ h
  · rcases hwt : env.writeTemp with e | ⟨⟩
    · have hp : process env jobData db now
          = failOutcome db jobData.fileHash e true false
              env.unlinkTempInCatch 0 [] [] [10] := by
        simp [process, hdl, hwt]
      rw [hp] at h ⊢
      exact failOutcome_rows _ _ _ _ _ _ _ _ _ _ _ h
    · rcases hld : env.loadPdf with e | docs
      · have hp : process env jobData db now
            = failOutcome db jobData.fileHash e true true
                env.unlinkTempInCatch 0 [] [] [10, 30] := by
          simp [process, hdl, hwt, hld]
        rw [hp] at h ⊢
        exact failOutcome_rows _ _ _ _ _ _ _ _ _ _ _ h
      · rcases hsp : env.split600 docs with e | chunks
        · have hp : process env jobData db now
              = failOutcome db jobData.fileHash e true true
                  env.unlinkTempInCatch 0 [] [] [10, 30] := by
            simp [process, hdl, hwt, hld, hsp]
          rw [hp] at h ⊢
          exact failOutcome_rows _ _ _ _ _ _ _ _ _ _ _ h
        · rcases hul : env.unlinkTemp with e | ⟨⟩
          · have hp : process env jobData db now
                = failOutcome db jobData.fileHash e true true
                    env.unlinkTempInCatch 0 [] [] [10, 30] := by
              simp [process, hdl, hwt, hld, hsp, hul]
            rw [hp] at h ⊢
            exact failOutcome_rows _ _ _ _ _ _ _ _ _ _ _ h
          · by_cases h5 : (validChunksOf env.split1500 chunks).length = 0
            · have hp : process env jobData db now
                  = failOutcome db jobData.fileHash
                      (s2c "No valid chunks found in PDF") false false
                      env.unlinkTempInCatch 0 [] [] [10, 30] := by
                simp [process, hdl, hwt, hld, hsp, hul, h5]
              rw [hp] at h ⊢
              exact failOutcome_rows _ _ _ _ _ _ _ _ _ _ _ h
            · rcases hup : env.upsert (buildPoints 1 (validChunksOf env.split1500 chunks)
                  (embedStage env (validChunksOf env.split1500 chunks)).1
                  jobData.fileHash jobData.fileName jobData.objectKey now) with e | ⟨⟩
              · have hp : process env jobData db now
                    = failOutcome db jobData.fileHash e false false
                        env.unlinkTempInCatch
                        (embedStage env (validChunksOf env.split1500 chunks)).2.1
                        [buildPoints 1 (validChunksOf env.split1500 chunks)
                          (embedStage env (validChunksOf env.split1500 chunks)).1
                          jobData.fileHash jobData.fileName jobData.objectKey now]
                        (embedStage env (validChunksOf env.split1500 chunks)).1
                        ([10, 30, 50]
                          ++ (embedStage env (validChunksOf env.split1500 chunks)).2.2
                          ++ [80]) := by
                  simp [process, hdl, hwt, hld, hsp, hul, h5, hup]
                rw [hp] at h ⊢
                exact failOutcome_rows _ _ _ _ _ _ _ _ _ _ _ h
              · exfalso
                have hp : (process env jobData db now).result
                    = .ok { status := s2c "success"
                            totalChunks := chunks.length
                            processedChunks := (buildPoints 1 (validChunksOf env.split1500 chunks)
                              (embedStage env (validChunksOf env.split1500 chunks)).1
                              jobData.fileHash jobData.fileName jobData.objectKey now).length
                            fileHash := jobData.fileHash } := by
                  simp [process, hdl, hwt, hld, hsp, hul, h5, hup]
                rw [hp] at h
                exact Except.noConfusion h

/-- Witness for C10 at `w10Env` (download fails) over `w10Db`, whose record
previously carried `chunk_count = some 7`: after the failure every record of
the hash holds `failed`, `chunk_count = some 0` and the message. -/
theorem C10_failed_chunk_count_zero_witness :
    (process w10Env cexJobData w10Db 1).result = .error (s2c "net down")
      ∧ ∀ r ∈ (process w10Env cexJobData w10Db 1).db.rows,
          r.content_hash = cexJobData.fileHash →
            r.status = .failed ∧ r.chunk_count = some 0
              ∧ r.error_message = some (s2c "net down") :=
  ⟨by decide,
    C10_failed_chunk_count_zero w10Env cexJobData w10Db 1 (s2c "net down")
      (by decide)⟩
